import Mathlib

/-!
Shallow embedding of the `cnvx` linear-programming toolkit
(`cnvx-math` dense matrices, `cnvx-core` model algebra, `cnvx-lp`
two-phase simplex engine), with `f64` modelled as exact rationals `ℚ`.
Each definition mirrors the corresponding Rust item; theorems at the end
settle the specification claims.
-/

/-- The list `[0, 1, ..., n-1]`, modelling the Rust range `0..n`. -/
def upto : Nat → List Nat
  | 0 => []
  | n+1 => upto n ++ [n]

/-- Absolute value, modelling `f64::abs`. -/
def qabs (x : ℚ) : ℚ := if x < 0 then -x else x

/-- Swap the elements at indices `i` and `j` of a list (Rust `Vec::swap`). -/
def listSwap (l : List α) (i j : Nat) (d : α) : List α :=
  (l.set i (l.getD j d)).set j (l.getD i d)

/-- The constant `1e-12` used as pivot / drift threshold throughout the source. -/
def eps12 : ℚ := 1 / 1000000000000

/-- The constant `1e-15` used as the elimination-skip threshold in the source. -/
def eps15 : ℚ := 1 / 1000000000000000

/-- `DenseMatrix` from `cnvx-math/src/matrix/dense.rs`: row-major flat storage. -/
structure DenseMatrix where
  rows : Nat
  cols : Nat
  data : List ℚ
deriving DecidableEq, Repr

/-- `DenseMatrix::new`: zero-initialised `rows * cols` buffer. -/
def DenseMatrix.new (rows cols : Nat) : DenseMatrix :=
  ⟨rows, cols, List.replicate (rows * cols) 0⟩

/-- `DenseMatrix::get`, panic-aware: `self.data[r * self.cols + c]`; `none`
models the out-of-bounds panic of the Rust slice index. -/
def DenseMatrix.getP (m : DenseMatrix) (r c : Nat) : Option ℚ :=
  m.data.get? (r * m.cols + c)

/-- `DenseMatrix::set`, panic-aware: writes `self.data[r * self.cols + c]`;
`none` models the out-of-bounds panic of the Rust slice index. -/
def DenseMatrix.setP (m : DenseMatrix) (r c : Nat) (v : ℚ) : Option DenseMatrix :=
  if r * m.cols + c < m.data.length then
    some { m with data := m.data.set (r * m.cols + c) v }
  else none

/-- `DenseMatrix::get` as a total function (in the engine every access is in
bounds, so the panic case never fires there; out of bounds yields `0`). -/
def DenseMatrix.get (m : DenseMatrix) (r c : Nat) : ℚ :=
  m.data.getD (r * m.cols + c) 0

/-- `DenseMatrix::set` as a total function (`List.set` is the identity out of
bounds; in the engine every access is in bounds). -/
def DenseMatrix.set (m : DenseMatrix) (r c : Nat) (v : ℚ) : DenseMatrix :=
  { m with data := m.data.set (r * m.cols + c) v }

/-- Entry `(r, c)` of the augmented-matrix representation `List (List ℚ)`. -/
def augRowGet (aug : List (List ℚ)) (r c : Nat) : ℚ := (aug.getD r []).getD c 0

/-- Partial-pivot search for column `col` of `gaussian_elimination`: start from
row `col`, scan rows `col+1..n-1`, keep the first row attaining the maximal
absolute value (strict improvement required, as in the source). -/
def pivotSelect (aug : List (List ℚ)) (col n : Nat) : Nat × ℚ :=
  ((upto n).drop (col+1)).foldl
    (fun p r => let v := qabs (augRowGet aug r col); if p.2 < v then (r, v) else p)
    (col, qabs (augRowGet aug col col))

/-- One column step of `gaussian_elimination`: partial pivot, singularity
check against `1e-12`, row swap, normalisation of the pivot row from entry
`col` on, and elimination of every other row (skipped when the factor is
below `1e-15`). -/
def elimStep (aug : List (List ℚ)) (col n : Nat) : Except String (List (List ℚ)) :=
  let pm := pivotSelect aug col n
  if pm.2 < eps12 then .error "singular matrix"
  else
    let aug1 := if pm.1 ≠ col then listSwap aug pm.1 col [] else aug
    let diag := augRowGet aug1 col col
    let aug2 := aug1.set col
      ((aug1.getD col []).mapIdx (fun k v => if col ≤ k then v / diag else v))
    let pivotRow := aug2.getD col []
    .ok (aug2.mapIdx (fun r row =>
      if r = col then row
      else
        let fac := row.getD col 0
        if qabs fac < eps15 then row
        else row.mapIdx (fun k v => if col ≤ k then v - fac * pivotRow.getD k 0 else v)))

/-- The column loop of `gaussian_elimination`: with `fuel` columns remaining,
the current column is `n - fuel`. -/
def elimLoop (n : Nat) : Nat → List (List ℚ) → Except String (List (List ℚ))
  | fuel+1, aug =>
    match elimStep aug (n - (fuel+1)) n with
    | .error e => .error e
    | .ok aug' => elimLoop n fuel aug'
  | 0, aug => .ok aug

/-- `DenseMatrix::gaussian_elimination` from `dense.rs`: solve `A x = rhs` in
place by Gauss-Jordan elimination with partial pivoting on the augmented
matrix, returning the solution column. -/
def DenseMatrix.gaussianElimination (m : DenseMatrix) (rhs : List ℚ) :
    Except String (List ℚ) :=
  let n := m.rows
  if rhs.length ≠ n then .error "rhs length mismatch"
  else
    let aug := (upto n).map (fun i => ((upto n).map (fun j => m.get i j)) ++ [rhs.getD i 0])
    match elimLoop n n aug with
    | .error e => .error e
    | .ok aug' => .ok ((upto n).map (fun i => augRowGet aug' i n))

/-- Whether the elimination of the square block of `m` alone (no right-hand
side) hits a pivot of absolute value below `1e-12` at some column. This is a
property of the matrix only; the claim theorems relate it to the `Singular`
failure of `gaussian_elimination`. -/
def DenseMatrix.pivotFailure (m : DenseMatrix) : Bool :=
  let n := m.rows
  let blk := (upto n).map (fun i => (upto n).map (fun j => m.get i j))
  match elimLoop n n blk with
  | .error _ => true
  | .ok _ => false

/-- `VarId` from `cnvx-core/src/var.rs`: an index into the model's variables. -/
abbrev VarId := Nat

/-- `LinTerm` from `cnvx-core/src/expr.rs`: `coeff * var`. -/
structure LinTerm where
  var : VarId
  coeff : ℚ
deriving DecidableEq, Repr

/-- `LinExpr` from `cnvx-core/src/expr.rs`: `a1*x1 + ... + c`. -/
structure LinExpr where
  terms : List LinTerm
  constant : ℚ
deriving DecidableEq, Repr

/-- `LinExpr::new(var, coeff)`. -/
def LinExpr.new (var : VarId) (coeff : ℚ) : LinExpr := ⟨[⟨var, coeff⟩], 0⟩

/-- `impl Add for LinExpr`: concatenate the term lists, add the constants. -/
def LinExpr.add (self rhs : LinExpr) : LinExpr :=
  ⟨self.terms ++ rhs.terms, self.constant + rhs.constant⟩

/-- `impl From<VarId> for LinExpr`: coefficient `1.0`. -/
def LinExpr.ofVar (var : VarId) : LinExpr := LinExpr.new var 1

/-- `impl Mul<f64> for VarId`: `x * k` builds `LinExpr::new(x, k)`. -/
def VarId.mulF (self : VarId) (rhs : ℚ) : LinExpr := LinExpr.new self rhs

/-- `impl Mul<VarId> for f64`: `k * x` delegates to `x * k`. -/
def mulFVar (self : ℚ) (rhs : VarId) : LinExpr := rhs.mulF self

/-- Value of a linear expression under an assignment of values to variables. -/
def LinExpr.eval (e : LinExpr) (σ : VarId → ℚ) : ℚ :=
  e.terms.foldl (fun acc t => acc + t.coeff * σ t.var) 0 + e.constant

/-- `Cmp` from `cnvx-core/src/constraint.rs`. -/
inductive Cmp where
  | Eq
  | Leq
  | Geq
deriving DecidableEq, Repr

/-- `Constraint` from `cnvx-core/src/constraint.rs`: `expr cmp rhs`. -/
structure Constraint where
  expr : LinExpr
  rhs : ℚ
  cmp : Cmp
deriving DecidableEq, Repr

/-- `Constraint::leq`. -/
def Constraint.leq (lhs : LinExpr) (rhs : ℚ) : Constraint := ⟨lhs, rhs, .Leq⟩

/-- `Constraint::geq`. -/
def Constraint.geq (lhs : LinExpr) (rhs : ℚ) : Constraint := ⟨lhs, rhs, .Geq⟩

/-- `Constraint::eq`. -/
def Constraint.eqc (lhs : LinExpr) (rhs : ℚ) : Constraint := ⟨lhs, rhs, .Eq⟩

/-- Truth of a constraint under an assignment. -/
def Constraint.holds (con : Constraint) (σ : VarId → ℚ) : Prop :=
  match con.cmp with
  | .Leq => con.expr.eval σ ≤ con.rhs
  | .Geq => con.rhs ≤ con.expr.eval σ
  | .Eq => con.expr.eval σ = con.rhs

/-- `Sense` from `cnvx-core/src/objective.rs`. -/
inductive Sense where
  | Minimize
  | Maximize
deriving DecidableEq, Repr

/-- `Objective` from `cnvx-core/src/objective.rs`. -/
structure Objective where
  sense : Sense
  expr : LinExpr
  name : Option String := none
  priority : Option Nat := none
deriving DecidableEq, Repr

/-- `Objective::maximize(expr)` (with the builder's defaults). -/
def Objective.maximize (expr : LinExpr) : Objective := ⟨.Maximize, expr, none, none⟩

/-- `Objective::minimize(expr)` (with the builder's defaults). -/
def Objective.minimize (expr : LinExpr) : Objective := ⟨.Minimize, expr, none, none⟩

/-- `Var` from `cnvx-core/src/var.rs`. -/
structure Var where
  id : VarId
  lb : Option ℚ
  ub : Option ℚ
  is_integer : Bool
  is_artificial : Bool
deriving DecidableEq, Repr

/-- `Model` from `cnvx-core/src/model.rs`. -/
structure Model where
  vars : List Var
  constraints : List Constraint
  objective : Option Objective
  logging : Bool
deriving DecidableEq, Repr

/-- `Model::new`. -/
def Model.new : Model := ⟨[], [], none, true⟩

/-- `impl AddAssign<Constraint> for Model`: append the constraint. -/
def Model.addConstraint (m : Model) (con : Constraint) : Model :=
  { m with constraints := m.constraints ++ [con] }

/-- `Model::add_objective`. -/
def Model.add_objective (m : Model) (obj : Objective) : Model :=
  { m with objective := some obj }

/-- An assignment satisfying every constraint of the model. -/
def Model.Satisfies (m : Model) (σ : VarId → ℚ) : Prop :=
  ∀ con ∈ m.constraints, con.holds σ

/-- `VarBuilder` from `cnvx-core/src/var.rs`; it borrows the model mutably, so
here it carries the model. -/
structure VarBuilder where
  model : Model
  var : VarId
deriving DecidableEq, Repr

/-- `Model::add_var`: push a fresh variable (default lower bound `0`) and hand
out a builder for it. -/
def Model.add_var (m : Model) : VarBuilder :=
  let id := m.vars.length
  ⟨{ m with vars := m.vars ++ [⟨id, some 0, none, false, false⟩] }, id⟩

/-- `VarBuilder::lower_bound`: the body is `panic!("Lower bound not implemented
yet")` before anything else; `none` models the unconditional panic. -/
def VarBuilder.lower_bound (_self : VarBuilder) (_lb : ℚ) : Option VarBuilder :=
  none

/-- `VarBuilder::upper_bound`: the body is `panic!("Upper bound not implemented
yet")` before anything else; `none` models the unconditional panic. -/
def VarBuilder.upper_bound (_self : VarBuilder) (_ub : ℚ) : Option VarBuilder :=
  none

/-- `VarBuilder::integer`. -/
def VarBuilder.integer (self : VarBuilder) : VarBuilder :=
  let v := self.model.vars.getD self.var ⟨0, none, none, false, false⟩
  ⟨{ self.model with vars := self.model.vars.set self.var ({ v with is_integer := true }) },
    self.var⟩

/-- `VarBuilder::binary`: integer with bounds `[0, 1]`. -/
def VarBuilder.binary (self : VarBuilder) : VarBuilder :=
  let v := self.model.vars.getD self.var ⟨0, none, none, false, false⟩
  let v' := { v with is_integer := true, lb := some 0, ub := some 1 }
  ⟨{ self.model with vars := self.model.vars.set self.var v' }, self.var⟩

/-- `VarBuilder::finish`: hand back the model and the variable id. -/
def VarBuilder.finish (self : VarBuilder) : Model × VarId := (self.model, self.var)

/-- `SolveStatus` from `cnvx-core/src/status.rs`. -/
inductive SolveStatus where
  | NotSolved
  | Optimal
  | Infeasible
  | Unbounded
  | Other (msg : String)
deriving DecidableEq, Repr

/-- `SolveError` from `cnvx-core/src/status.rs` (`error.rs`). -/
inductive SolveError where
  | NoObjective
  | InvalidModel (msg : String)
  | NumericalFailure (msg : String)
  | InternalSolverError (msg : String)
  | Unsupported (msg : String)
  | Other (msg : String)
deriving DecidableEq, Repr

/-- `Solution` from `cnvx-core/src/solution.rs`. -/
structure Solution where
  values : List ℚ
  objective_value : Option ℚ
  status : SolveStatus
deriving DecidableEq, Repr

/-- `Solution::value`. -/
def Solution.value (self : Solution) (var : VarId) : ℚ := self.values.getD var 0

/-- `cnvx-lp/src/validate.rs::check_lp`: reject models without an objective. -/
def check_lp (model : Model) : Except SolveError Unit :=
  match model.objective with
  | none => .error .NoObjective
  | some _ => .ok ()

/-- `SimplexState` from `cnvx-lp/src/simplex.rs` (the borrowed `model` field is
only read during construction and is not carried here). -/
structure SimplexState where
  iteration : Nat
  basis : List Nat
  non_basis : List Nat
  x_b : List ℚ
  a : DenseMatrix
  b : List ℚ
  c : List ℚ
  objective : ℚ
  status : SolveStatus
  minimise : Bool
deriving DecidableEq, Repr

/-- The step of the `n_total` count in `SimplexState::new`: each `Leq`/`Geq`
constraint adds `2` to the column count, `Eq` adds nothing. -/
def ntotalStep (acc : Nat) (cons : Constraint) : Nat :=
  match cons.cmp with
  | .Leq | .Geq => acc + 2
  | .Eq => acc

/-- The inner term loop of `SimplexState::new`'s constraint pass:
`a.set(i, term.var.0, term.coeff)` for each term (assignment, so a later
duplicate `VarId` overwrites an earlier one). -/
def setTerms (i : Nat) (a : DenseMatrix) : List LinTerm → DenseMatrix :=
  List.foldl (fun a term => a.set i term.var term.coeff) a

/-- One constraint row of `SimplexState::new`: write `b[i]`, write the term
coefficients, then the slack (`+1`) or surplus (`-1`) column for `Leq`/`Geq`.
State is `(A, b, extra_idx, i)`. -/
def tableauStep (st : DenseMatrix × List ℚ × Nat × Nat) (cons : Constraint) :
    DenseMatrix × List ℚ × Nat × Nat :=
  let b' := st.2.1.set st.2.2.2 cons.rhs
  let a' := setTerms st.2.2.2 st.1 cons.expr.terms
  match cons.cmp with
  | .Leq => (a'.set st.2.2.2 st.2.2.1 1, b', st.2.2.1 + 1, st.2.2.2 + 1)
  | .Geq => (a'.set st.2.2.2 st.2.2.1 (-1), b', st.2.2.1 + 1, st.2.2.2 + 1)
  | .Eq => (a', b', st.2.2.1, st.2.2.2 + 1)

/-- `SimplexState::new`: build the tableau. Note the source adds `2` to
`n_total` for every `Leq`/`Geq` constraint but populates only one extra
column per such constraint, and both the objective and the constraint rows
assign (not accumulate) coefficients per `VarId`. -/
def SimplexState.new (model : Model) : SimplexState :=
  let n_vars := model.vars.length
  let n_cons := model.constraints.length
  let b0 : List ℚ := List.replicate n_cons 0
  let n_total := model.constraints.foldl ntotalStep n_vars
  let a0 := DenseMatrix.new n_cons n_total
  let c0 : List ℚ := List.replicate n_total 0
  let minimise := (model.objective.map
    (fun o => match o.sense with | .Minimize => true | .Maximize => false)).getD false
  let c1 := match model.objective with
    | none => c0
    | some obj => obj.expr.terms.foldl
        (fun c term => c.set term.var
          (match obj.sense with | .Maximize => term.coeff | .Minimize => -term.coeff)) c0
  let abe := model.constraints.foldl tableauStep (a0, b0, n_vars, 0)
  { iteration := 0
    basis := []
    non_basis := upto n_vars
    x_b := List.replicate n_cons 0
    a := abe.1
    b := abe.2.1
    c := c1
    objective := 0
    status := .NotSolved
    minimise := minimise }

/-- The inner row scan of `init_basis` for column `j`: first component is the
row holding the (unique) `1`-entry, second is the `ok` flag; the flag going
`false` models the `break`. -/
def colScan (a : DenseMatrix) (m j : Nat) : Option Nat × Bool :=
  (upto m).foldl
    (fun st i =>
      if st.2 = false then st
      else
        let v := a.get i j
        if eps12 < qabs v then
          if qabs (v - 1) < eps12 then
            match st.1 with
            | some _ => (st.1, false)
            | none => (some i, true)
          else (st.1, false)
        else st)
    (none, true)

/-- `SimplexState::init_basis`: adopt identity-like columns as the basis when
they cover every row, otherwise fall back to the trivial split. -/
def SimplexState.init_basis (s : SimplexState) : SimplexState :=
  let m := s.a.rows
  let n := s.a.cols
  let bu := (upto n).foldl
    (fun (bu : List (Option Nat) × List Bool) j =>
      let sc := colScan s.a m j
      if sc.2 then
        match sc.1 with
        | some r =>
          if (bu.1.getD r none).isNone then (bu.1.set r (some j), bu.2.set j true)
          else bu
        | none => bu
      else bu)
    (List.replicate m none, List.replicate n false)
  if bu.1.all Option.isSome then
    { s with basis := bu.1.map (fun o => o.getD 0)
             non_basis := (upto n).filter (fun j => !(bu.2.getD j false)) }
  else
    { s with basis := upto m, non_basis := (upto n).drop m }

/-- `SimplexState::build_bmat`: basis columns of `A`. -/
def SimplexState.build_bmat (s : SimplexState) : DenseMatrix :=
  let m := s.a.rows
  (upto m).foldl
    (fun bm i => (upto m).foldl
      (fun bm j => bm.set i j (s.a.get i (s.basis.getD j 0))) bm)
    (DenseMatrix.new m m)

/-- `SimplexState::compute_basic_solution`: solve `B x_B = b`. -/
def SimplexState.compute_basic_solution (s : SimplexState) (bmat : DenseMatrix) :
    Except String (List ℚ) :=
  match bmat.gaussianElimination s.b with
  | .error e => .error ("gauss failed: " ++ e)
  | .ok xb => .ok xb

/-- `SimplexState::compute_duals`: solve `Bᵀ π = c_B`. -/
def SimplexState.compute_duals (s : SimplexState) (bmat : DenseMatrix) :
    Except SolveError (List ℚ) :=
  let m := bmat.rows
  let pi0 := (upto m).map (fun i => s.c.getD (s.basis.getD i 0) 0)
  let bt := (upto m).foldl
    (fun bt i => (upto m).foldl (fun bt j => bt.set i j (bmat.get j i)) bt)
    (DenseMatrix.new m m)
  match bt.gaussianElimination pi0 with
  | .error e => .error (.Other ("dual solve failed: " ++ e))
  | .ok pi => .ok pi

/-- Reduced cost `r_j = c_j - Σ_i π_i · A[i, j]` of column `j`. -/
def SimplexState.reduced_cost (s : SimplexState) (pi : List ℚ) (j : Nat) : ℚ :=
  s.c.getD j 0 - (upto pi.length).foldl (fun acc i => acc + pi.getD i 0 * s.a.get i j) 0

/-- The `non_basis.iter().enumerate().filter_map(...)` chain of
`choose_entering`, over an abstract reduced-cost function `rc`: candidates
`(position, column, reduced cost)` with reduced cost exceeding `tol`, in
order of appearance; `pos` is the position of the head of `l`. -/
def candList (rc : Nat → ℚ) (tol : ℚ) : Nat → List Nat → List (Nat × Nat × ℚ)
  | _, [] => []
  | pos, j :: rest =>
    (if tol < rc j then [(pos, j, rc j)] else []) ++ candList rc tol (pos + 1) rest

/-- Rust `Iterator::max_by` on the third component: of several equally maximal
elements the LAST is kept. -/
def pickMax : List (Nat × Nat × ℚ) → Option (Nat × Nat × ℚ) :=
  List.foldl
    (fun acc x => match acc with
      | none => some x
      | some y => if x.2.2 < y.2.2 then some y else some x)
    none

/-- The body of `choose_entering` over an abstract reduced-cost function:
filter the enumerated non-basis by `rc > tol`, then `max_by` on `rc`. -/
def pickEntering (rc : Nat → ℚ) (tol : ℚ) (nb : List Nat) : Option (Nat × Nat) :=
  match pickMax (candList rc tol 0 nb) with
  | none => none
  | some t => some (t.1, t.2.1)

/-- `SimplexState::choose_entering`: Dantzig pricing via `max_by`. -/
def SimplexState.choose_entering (s : SimplexState) (pi : List ℚ) (tol : ℚ) :
    Option (Nat × Nat) :=
  pickEntering (s.reduced_cost pi) tol s.non_basis

/-- `SimplexState::compute_direction`: solve `B d = A[·, entering]`. -/
def SimplexState.compute_direction (s : SimplexState) (bmat : DenseMatrix)
    (entering : Nat) : Except SolveError (List ℚ) :=
  let d0 := (upto bmat.rows).map (fun i => s.a.get i entering)
  match bmat.gaussianElimination d0 with
  | .error e => .error (.Other ("direction solve failed: " ++ e))
  | .ok d => .ok d

/-- Rust `Iterator::min_by` on the second component: of several equally
minimal elements the FIRST is kept. -/
def pickMin : List (Nat × ℚ) → Option (Nat × ℚ) :=
  List.foldl
    (fun acc x => match acc with
      | none => some x
      | some y => if x.2 < y.2 then some x else some y)
    none

/-- `SimplexState::choose_leaving`: minimum-ratio test over rows with
`d[i] > tol`. -/
def SimplexState.choose_leaving (s : SimplexState) (d : List ℚ) (tol : ℚ) :
    Option (Nat × ℚ) :=
  pickMin ((upto d.length).filterMap
    (fun i => if tol < d.getD i 0 then some (i, s.x_b.getD i 0 / d.getD i 0) else none))

/-- `SimplexState::update_primal`: step along the direction, snap entries
below `1e-12` to zero, then place `θ` in the leaving row. -/
def SimplexState.update_primal (s : SimplexState) (d : List ℚ) (leave : Nat)
    (theta : ℚ) : SimplexState :=
  let xb1 := s.x_b.mapIdx
    (fun i v => let w := v - theta * d.getD i 0; if qabs w < eps12 then 0 else w)
  { s with x_b := xb1.set leave theta }

/-- `SimplexState::pivot`: swap entering and leaving indices and overwrite the
basis-matrix column. -/
def SimplexState.pivot (s : SimplexState) (bmat : DenseMatrix)
    (enter_pos leave_row entering : Nat) : SimplexState × DenseMatrix :=
  let leaving := s.basis.getD leave_row 0
  let s' := { s with basis := s.basis.set leave_row entering
                     non_basis := s.non_basis.set enter_pos leaving }
  let bmat' := (upto bmat.rows).foldl
    (fun bm i => bm.set i leave_row (s'.a.get i entering)) bmat
  (s', bmat')

/-- `SimplexState::update_objective`: `z = Σ c[basis[i]] · x_B[i]`. -/
def SimplexState.update_objective (s : SimplexState) : SimplexState :=
  { s with objective :=
      ((s.basis.zip (upto s.basis.length)).foldl
        (fun acc vi => acc + s.c.getD vi.1 0 * s.x_b.getD vi.2 0) 0) }

/-- The body of `run_simplex`'s `for iter in current_iter..max_iter` loop;
`fuel` counts the remaining iterations, so the current `iter` is
`max_iter - fuel`. -/
def run_simplex_go (maxIter : Nat) (tol : ℚ) :
    Nat → SimplexState → DenseMatrix → Except SolveError (SimplexState × DenseMatrix)
  | 0, _, _ => .error (.Other "max iterations reached")
  | fuel+1, s, bmat =>
    let s := { s with iteration := maxIter - (fuel + 1) }
    match s.compute_duals bmat with
    | .error e => .error e
    | .ok pi =>
      match s.choose_entering pi tol with
      | none => .ok ({ s with status := .Optimal }, bmat)
      | some pe =>
        match s.compute_direction bmat pe.2 with
        | .error e => .error e
        | .ok d =>
          match s.choose_leaving d tol with
          | none => .ok ({ s with status := .Unbounded }, bmat)
          | some lt =>
            let s := s.update_primal d lt.1 lt.2
            let sb := s.pivot bmat pe.1 lt.1 pe.2
            let s := sb.1.update_objective
            run_simplex_go maxIter tol fuel s sb.2

/-- `SimplexState::run_simplex`: iterate from the current iteration count. -/
def SimplexState.run_simplex (s : SimplexState) (bmat : DenseMatrix)
    (maxIter : Nat) (tol : ℚ) : Except SolveError (SimplexState × DenseMatrix) :=
  run_simplex_go maxIter tol (maxIter - s.iteration) s bmat

/-- `SimplexState::setup_phase1`: augment with an artificial identity block,
flipping rows with negative right-hand side; returns the saved `(A, c)`, the
updated state and the phase-1 basis matrix. -/
def SimplexState.setup_phase1 (s : SimplexState) (orig_n : Nat) :
    (DenseMatrix × List ℚ) × SimplexState × DenseMatrix :=
  let m := s.a.rows
  let n := s.a.cols
  let ab := (upto m).foldl
    (fun (ab : DenseMatrix × List ℚ) i =>
      let ab1 :=
        if ab.2.getD i 0 < 0 then
          ((upto n).foldl (fun am j => am.set i j (-(s.a.get i j))) ab.1,
            ab.2.set i (-(ab.2.getD i 0)))
        else
          ((upto n).foldl (fun am j => am.set i j (s.a.get i j)) ab.1, ab.2)
      ((upto m).foldl (fun am j => am.set i (n + j) (if i = j then 1 else 0)) ab1.1,
        ab1.2))
    (DenseMatrix.new m (n + m), s.b)
  let c_aug := (upto m).foldl (fun c j => c.set (n + j) (-1))
    (List.replicate (n + m) (0 : ℚ))
  let orig_a := s.a
  let orig_c := s.c
  let s' := { s with a := ab.1, c := c_aug,
                     basis := (upto (orig_n + m)).drop orig_n,
                     non_basis := upto orig_n,
                     x_b := ab.2 }
  let bmat := (upto m).foldl
    (fun bm i => (upto m).foldl
      (fun bm j => bm.set i j (s'.a.get i (s'.basis.getD j 0))) bm)
    (DenseMatrix.new m m)
  ((orig_a, orig_c), s', bmat)

/-- The row loop of `remove_artificial_from_basis`. -/
def raf_go (orig_n : Nat) :
    List Nat → SimplexState → DenseMatrix → Except String (SimplexState × DenseMatrix)
  | [], s, bmat => .ok (s, bmat)
  | row :: rest, s, bmat =>
    if orig_n ≤ s.basis.getD row 0 then
      match (s.non_basis.zip (upto s.non_basis.length)).find?
          (fun jp => if jp.1 < orig_n ∧ eps12 < qabs (s.a.get row jp.1) then true else false) with
      | some jp =>
        let leaving := s.basis.getD row 0
        let s' := { s with basis := s.basis.set row jp.1
                           non_basis := s.non_basis.set jp.2 leaving }
        let bmat' := (upto bmat.rows).foldl
          (fun bm i => bm.set i row (s'.a.get i jp.1)) bmat
        raf_go orig_n rest s' bmat'
      | none =>
        if eps12 < qabs (s.x_b.getD row 0) then
          .error "artificial variable left in basis with non-zero value"
        else raf_go orig_n rest s bmat
    else raf_go orig_n rest s bmat

/-- `SimplexState::remove_artificial_from_basis`. -/
def SimplexState.remove_artificial_from_basis (s : SimplexState)
    (bmat : DenseMatrix) (orig_n : Nat) : Except String (SimplexState × DenseMatrix) :=
  raf_go orig_n (upto bmat.rows) s bmat

/-- `SimplexState::try_phase2`: if the initial basis is feasible, run the main
loop directly; the returned flag says whether that happened. -/
def SimplexState.try_phase2 (s : SimplexState) (maxIter : Nat) (tol : ℚ) :
    Except SolveError (Bool × SimplexState) :=
  let bmat := s.build_bmat
  match s.compute_basic_solution bmat with
  | .ok xb =>
    if xb.all (fun v => if -tol ≤ v then true else false) then
      let s1 := { s with x_b := xb }
      match s1.remove_artificial_from_basis bmat s1.a.cols with
      | .error msg => .error (.InvalidModel msg)
      | .ok sb =>
        match sb.1.run_simplex sb.2 maxIter tol with
        | .error e => .error e
        | .ok sb2 => .ok (true, sb2.1)
    else .ok (false, s)
  | .error _ => .ok (false, s)

/-- `SimplexState::phase1`: run the artificial-variable phase; on a positive
residual the status is set to `Infeasible` and the function returns `Ok`
early (without restoring `A` and `c`). -/
def SimplexState.phase1 (s : SimplexState) (orig_n maxIter : Nat) (tol : ℚ) :
    Except SolveError SimplexState :=
  let acsb := s.setup_phase1 orig_n
  match acsb.2.1.run_simplex acsb.2.2 maxIter tol with
  | .error e => .error e
  | .ok sb =>
    let s1 := sb.1
    let sum_art := -((s1.basis.zip (upto s1.basis.length)).foldl
      (fun acc vi => acc + s1.c.getD vi.1 0 * s1.x_b.getD vi.2 0) 0)
    if tol < sum_art then .ok { s1 with status := .Infeasible }
    else
      match s1.remove_artificial_from_basis sb.2 orig_n with
      | .error msg => .error (.InvalidModel msg)
      | .ok sb2 => .ok { sb2.1 with a := acsb.1.1, c := acsb.1.2 }

/-- `SimplexState::phase2`: rebuild the basis matrix and run the main loop. -/
def SimplexState.phase2 (s : SimplexState) (maxIter : Nat) (tol : ℚ) :
    Except SolveError SimplexState :=
  match s.run_simplex s.build_bmat maxIter tol with
  | .error e => .error e
  | .ok sb => .ok sb.1

/-- The row step of `extract_solution`'s value loop: when the basic column of
row `i` lies below `orig_n`, write `x_B[i]` into the solution at that column. -/
def SimplexState.writeBasicRow (s : SimplexState) (orig_n : Nat)
    (sol : List ℚ) (i : Nat) : List ℚ :=
  if s.basis.getD i 0 < orig_n then sol.set (s.basis.getD i 0) (s.x_b.getD i 0)
  else sol

/-- `SimplexState::extract_solution`: write basic values with index `< orig_n`
into a zero vector of length `orig_n` and recompute the objective, negating
for minimisation. -/
def SimplexState.extract_solution (s : SimplexState) (orig_n : Nat) :
    List ℚ × ℚ :=
  let m := s.a.rows
  let sol := (upto m).foldl (s.writeBasicRow orig_n) (List.replicate orig_n 0)
  let obj := (s.basis.zip (upto s.basis.length)).foldl
    (fun acc vi =>
      if vi.1 < orig_n then acc + s.c.getD vi.1 0 * s.x_b.getD vi.2 0 else acc) 0
  (sol, if s.minimise then -obj else obj)

/-- `SimplexState::solve_lp`: two-phase driver; note the unconditional fall
through from `phase1` to `phase2`. -/
def SimplexState.solve_lp (s : SimplexState) (maxIter : Nat) (tol : ℚ) :
    Except SolveError (SimplexState × List ℚ × ℚ) :=
  let s0 := s.init_basis
  let orig_n := s0.a.cols
  match s0.try_phase2 maxIter tol with
  | .error e => .error e
  | .ok bs =>
    if bs.1 then .ok (bs.2, bs.2.extract_solution orig_n)
    else
      match bs.2.phase1 orig_n maxIter tol with
      | .error e => .error e
      | .ok s1 =>
        match s1.phase2 maxIter tol with
        | .error e => .error e
        | .ok s2 => .ok (s2, s2.extract_solution orig_n)

/-- `SimplexSolver` from `cnvx-lp/src/simplex.rs`. -/
structure SimplexSolver where
  tolerance : ℚ
  max_iterations : Nat
deriving DecidableEq, Repr

/-- `Default for SimplexSolver`: `tolerance = 1e-8`, `max_iterations = 1000`. -/
def SimplexSolver.default : SimplexSolver := ⟨1 / 100000000, 1000⟩

/-- `impl Solver for SimplexSolver`: validate, solve, and package the
`Solution` (the objective value is always `Some`). -/
def SimplexSolver.solve (self : SimplexSolver) (model : Model) :
    Except SolveError Solution :=
  match check_lp model with
  | .error e => .error e
  | .ok _ =>
    match (SimplexState.new model).solve_lp self.max_iterations self.tolerance with
    | .error e => .error e
    | .ok svo => .ok ⟨svo.2.1, some svo.2.2, svo.1.status⟩

/-- Number of inequality (`Leq` or `Geq`) constraints in a list. -/
def countIneq : List Constraint → Nat
  | [] => 0
  | con :: rest => (match con.cmp with | .Eq => 0 | .Leq => 1 | .Geq => 1) + countIneq rest

/-- Observe only the status of a state-valued `Except`. -/
def exceptStatus (e : Except SolveError SimplexState) : Option SolveStatus :=
  match e with
  | .ok s => some s.status
  | .error _ => none

/-- Recursive worker equivalent to folding `max_by` from a first candidate. -/
def pickMaxGo (a : Nat × Nat × ℚ) : List (Nat × Nat × ℚ) → Nat × Nat × ℚ
  | [] => a
  | x :: xs => pickMaxGo (if x.2.2 < a.2.2 then a else x) xs

/-- Left `n`-column block of an augmented matrix. -/
def blkOf (n : Nat) (aug : List (List ℚ)) : List (List ℚ) :=
  aug.map (fun row => row.take n)

/-- A model with no variables, no constraints, and objective `maximize 0`. -/
def trivModel : Model := ⟨[], [], some (Objective.maximize ⟨[], 0⟩), true⟩

/-- One variable `x` with `x ≥ 0`, `x ≤ 10`, objective `maximize 2·x`
(the doc-example model of `SimplexSolver`). -/
def exampleBoundedModel : Model :=
  ⟨[⟨0, some 0, none, false, false⟩],
   [Constraint.geq (LinExpr.ofVar 0) 0, Constraint.leq (LinExpr.ofVar 0) 10],
   some (Objective.maximize (VarId.mulF 0 2)), true⟩

/-- One variable `x` with the contradictory constraints `x ≤ 1`, `x ≥ 2`,
objective `maximize x`. -/
def infeasibleModel : Model :=
  ⟨[⟨0, some 0, none, false, false⟩],
   [Constraint.leq (LinExpr.ofVar 0) 1, Constraint.geq (LinExpr.ofVar 0) 2],
   some (Objective.maximize (LinExpr.ofVar 0)), true⟩

/-- One variable `x` with the single inequality constraint `x ≤ 10`. -/
def singleLeqModel : Model :=
  ⟨[⟨0, some 0, none, false, false⟩],
   [Constraint.leq (LinExpr.ofVar 0) 10],
   some (Objective.maximize (LinExpr.ofVar 0)), true⟩

/-- One variable `x`, constraint `x + x ≤ 2` (duplicate terms) and objective
`maximize 3·x + 4·x` (duplicate terms). -/
def duplicateTermsModel : Model :=
  ⟨[⟨0, some 0, none, false, false⟩],
   [Constraint.leq ((LinExpr.ofVar 0).add (LinExpr.ofVar 0)) 2],
   some (Objective.maximize ((VarId.mulF 0 3).add (VarId.mulF 0 4))), true⟩

/-- Two variables, `maximize x + y` subject to `2x ≤ 2`, `2y ≤ 2`: the first
pricing pass sees two candidates with equal reduced costs. -/
def tieModel : Model :=
  ⟨[⟨0, some 0, none, false, false⟩, ⟨1, some 0, none, false, false⟩],
   [Constraint.leq (VarId.mulF 0 2) 2, Constraint.leq (VarId.mulF 1 2) 2],
   some (Objective.maximize ((LinExpr.ofVar 0).add (LinExpr.ofVar 1))), true⟩

/-- The simplex state of `tieModel` right after `init_basis` (the state at
which the first pricing pass runs). -/
def sTie : SimplexState := (SimplexState.new tieModel).init_basis

theorem upto_length (n : Nat) : (upto n).length = n := by
  induction n with
  | zero => rfl
  | succ k ih => simp [upto, ih]

theorem foldl_terms_shift (σ : VarId → ℚ) (l : List LinTerm) :
    ∀ b : ℚ, l.foldl (fun acc t => acc + t.coeff * σ t.var) b
      = b + l.foldl (fun acc t => acc + t.coeff * σ t.var) 0 := by
  induction l with
  | nil => intro b; simp
  | cons t rest ih =>
    intro b
    simp only [List.foldl_cons]
    rw [ih, ih (0 + t.coeff * σ t.var)]
    ring

theorem LinExpr.eval_add (e1 e2 : LinExpr) (σ : VarId → ℚ) :
    (e1.add e2).eval σ = e1.eval σ + e2.eval σ := by
  simp only [LinExpr.add, LinExpr.eval, List.foldl_append]
  rw [foldl_terms_shift σ e2.terms]
  ring

/-- C8: `k*x + e` and `e + k*x` evaluate identically under every assignment,
and so do `(a+b) + c` and `a + (b+c)`, even though the term order differs. -/
theorem c8_expr_algebra :
    ∀ (k : ℚ) (x : VarId) (e a b c : LinExpr) (σ : VarId → ℚ),
      ((x.mulF k).add e).eval σ = (e.add (x.mulF k)).eval σ
      ∧ ((a.add b).add c).eval σ = (a.add (b.add c)).eval σ := by
  intro k x e a b c σ
  constructor
  · rw [LinExpr.eval_add, LinExpr.eval_add]; ring
  · rw [LinExpr.eval_add, LinExpr.eval_add, LinExpr.eval_add, LinExpr.eval_add]; ring

/-- C9: whenever the simplex façade returns `Ok`, the solution carries
`objective_value = Some _` (even for `Infeasible` / `Unbounded` statuses). -/
theorem c9_objective_value_some :
    ∀ (solver : SimplexSolver) (model : Model) (sol : Solution),
      solver.solve model = .ok sol → ∃ q, sol.objective_value = some q := by
  intro solver model sol h
  unfold SimplexSolver.solve at h
  split at h
  · exact absurd h (by simp)
  · split at h
    · exact absurd h (by simp)
    · injection h with h
      exact ⟨_, by rw [← h]⟩

/-- C7 (counterexample): setting a bound through the builder panics
(modelled as `none`) on the very first variable of a fresh model. -/
theorem c7_counterexample :
    Model.new.add_var.lower_bound 0 = none
    ∧ Model.new.add_var.upper_bound 10 = none :=
  ⟨rfl, rfl⟩

/-- C7 (amended): `VarBuilder::lower_bound` and `VarBuilder::upper_bound`
panic unconditionally ("not implemented yet"); no bound is recorded. -/
theorem c7_bounds_panic :
    ∀ (b : VarBuilder) (lb ub : ℚ),
      b.lower_bound lb = none ∧ b.upper_bound ub = none :=
  fun _ _ _ => ⟨rfl, rfl⟩

/-- C10: `get`/`set` index the flat buffer at `r*cols + c` without checking
`c < cols`: in-buffer overflows land on a later row; the panic (`none`)
happens exactly when the flat index passes the end of the buffer. -/
theorem c10_flat_indexing :
    ∀ (m : DenseMatrix) (r c : Nat) (v : ℚ),
      m.data.length = m.rows * m.cols →
      ((m.getP r c = none ↔ m.rows * m.cols ≤ r * m.cols + c)
        ∧ (m.setP r c v = none ↔ m.rows * m.cols ≤ r * m.cols + c))
      ∧ (m.cols ≤ c → r * m.cols + c < m.rows * m.cols →
          r < r + c / m.cols
          ∧ m.getP r c = m.getP (r + c / m.cols) (c % m.cols)
          ∧ (∃ w, m.getP r c = some w)
          ∧ (∃ m', m.setP r c v = some m'
              ∧ m'.getP (r + c / m.cols) (c % m.cols) = some v)) := by
  intro m r c v hlen
  have hcols : ∀ h : m.cols ≤ c, r * m.cols + c < m.rows * m.cols → 0 < m.cols := by
    intro hc hflat
    rcases Nat.eq_zero_or_pos m.cols with h0 | h
    · rw [h0] at hflat; simp at hflat
    · exact h
  have hflatEq : ∀ _ : 0 < m.cols,
      (r + c / m.cols) * m.cols + c % m.cols = r * m.cols + c := by
    intro _
    rw [Nat.add_mul, Nat.add_assoc]
    congr 1
    rw [Nat.mul_comm]
    exact Nat.div_add_mod c m.cols
  constructor
  · constructor
    · rw [DenseMatrix.getP, List.get?_eq_none, hlen]
    · rw [DenseMatrix.setP, hlen]
      split
      · simp; omega
      · simp; omega
  · intro hc hflat
    have hpos := hcols hc hflat
    have hfe := hflatEq hpos
    have hlt : r * m.cols + c < m.data.length := by omega
    refine ⟨Nat.lt_add_of_pos_right (Nat.div_pos hc hpos), ?_, ?_, ?_⟩
    · rw [DenseMatrix.getP, DenseMatrix.getP, hfe]
    · rw [DenseMatrix.getP]
      cases hq : m.data.get? (r * m.cols + c) with
      | none => exact absurd (List.get?_eq_none.mp hq) (by omega)
      | some w => exact ⟨w, rfl⟩
    · rw [DenseMatrix.setP]
      rw [if_pos hlt]
      refine ⟨_, rfl, ?_⟩
      show (m.data.set (r * m.cols + c) v).get?
        ((r + c / m.cols) * m.cols + c % m.cols) = some v
      rw [hfe]
      exact List.get?_set_eq_of_lt v hlt

/-- C10 witness: in a 2×2 matrix, reading `(0, 2)` lands on entry `(1, 0)`. -/
theorem c10_flat_indexing_witness :
    (DenseMatrix.mk 2 2 [5, 6, 7, 8]).getP 0 2 = (DenseMatrix.mk 2 2 [5, 6, 7, 8]).getP 1 0
    ∧ (DenseMatrix.mk 2 2 [5, 6, 7, 8]).getP 0 2 = some 7 := by
  have h := (c10_flat_indexing (DenseMatrix.mk 2 2 [5, 6, 7, 8]) 0 2 9 (by decide)).2
    (by decide) (by decide)
  have h2 := h.2.1
  norm_num at h2
  exact ⟨h2, by decide⟩

theorem setTerms_cols (i : Nat) :
    ∀ (terms : List LinTerm) (a : DenseMatrix), (setTerms i a terms).cols = a.cols := by
  intro terms
  induction terms with
  | nil => intro a; rfl
  | cons t rest ih =>
    intro a
    simp only [setTerms, List.foldl_cons]
    exact ih (a.set i t.var t.coeff)

theorem tableau_cols :
    ∀ (cs : List Constraint) (st : DenseMatrix × List ℚ × Nat × Nat),
      ((cs.foldl tableauStep st).1).cols = st.1.cols := by
  intro cs
  induction cs with
  | nil => intro st; rfl
  | cons con rest ih =>
    intro st
    rw [List.foldl_cons, ih]
    show ((tableauStep st con).1).cols = st.1.cols
    unfold tableauStep
    cases hcmp : con.cmp <;>
      simp only [hcmp] <;> simp [DenseMatrix.set, setTerms_cols]

theorem ntotal_foldl :
    ∀ (cs : List Constraint) (k : Nat),
      cs.foldl ntotalStep k = k + 2 * countIneq cs := by
  intro cs
  induction cs with
  | nil => intro k; simp [countIneq]
  | cons con rest ih =>
    intro k
    rw [List.foldl_cons, ih]
    cases hcmp : con.cmp <;> simp [ntotalStep, countIneq, hcmp] <;> omega

theorem new_a_cols (model : Model) :
    (SimplexState.new model).a.cols
      = model.vars.length + 2 * countIneq model.constraints := by
  unfold SimplexState.new
  dsimp only
  rw [tableau_cols]
  exact ntotal_foldl model.constraints model.vars.length

theorem init_basis_a (s : SimplexState) : s.init_basis.a = s.a := by
  unfold SimplexState.init_basis
  dsimp only
  split <;> rfl

theorem writeBasicRow_length (s : SimplexState) (orig_n : Nat) :
    ∀ (l : List Nat) (init : List ℚ),
      (l.foldl (s.writeBasicRow orig_n) init).length = init.length := by
  intro l
  induction l with
  | nil => intro init; rfl
  | cons i rest ih =>
    intro init
    rw [List.foldl_cons, ih]
    unfold SimplexState.writeBasicRow
    split
    · exact List.length_set init _ _
    · rfl

theorem extract_solution_length (s : SimplexState) (orig_n : Nat) :
    (s.extract_solution orig_n).1.length = orig_n := by
  unfold SimplexState.extract_solution
  dsimp only
  rw [writeBasicRow_length]
  exact List.length_replicate orig_n 0

theorem solve_lp_values_length (s : SimplexState) (maxIter : Nat) (tol : ℚ)
    (svo : SimplexState × List ℚ × ℚ) (h : s.solve_lp maxIter tol = .ok svo) :
    svo.2.1.length = s.a.cols := by
  simp only [SimplexState.solve_lp] at h
  cases htry : s.init_basis.try_phase2 maxIter tol with
  | error e => rw [htry] at h; exact absurd h (by simp)
  | ok bs =>
    rw [htry] at h
    dsimp only at h
    by_cases hb : bs.1
    · rw [if_pos hb] at h
      injection h with h
      rw [← h]
      dsimp only
      rw [extract_solution_length, init_basis_a]
    · rw [if_neg hb] at h
      cases hp1 : bs.2.phase1 s.init_basis.a.cols maxIter tol with
      | error e => rw [hp1] at h; exact absurd h (by simp)
      | ok s1 =>
        rw [hp1] at h
        dsimp only at h
        cases hp2 : s1.phase2 maxIter tol with
        | error e => rw [hp2] at h; exact absurd h (by simp)
        | ok s2 =>
          rw [hp2] at h
          dsimp only at h
          injection h with h
          rw [← h]
          dsimp only
          rw [extract_solution_length, init_basis_a]

/-- C1 (amended): whenever the simplex façade returns `Ok`, the solution's
`values` vector has length `n_vars + 2·(number of inequality constraints)` —
the tableau column count — rather than `n_vars`. -/
theorem c1_values_length :
    ∀ (solver : SimplexSolver) (model : Model) (sol : Solution),
      solver.solve model = .ok sol →
      sol.values.length = model.vars.length + 2 * countIneq model.constraints := by
  intro solver model sol h
  unfold SimplexSolver.solve at h
  cases hc : check_lp model with
  | error e => rw [hc] at h; exact absurd h (by simp)
  | ok u =>
    rw [hc] at h
    dsimp only at h
    cases hs : (SimplexState.new model).solve_lp solver.max_iterations solver.tolerance with
    | error e => rw [hs] at h; exact absurd h (by simp)
    | ok svo =>
      rw [hs] at h
      dsimp only at h
      injection h with h
      have hl := solve_lp_values_length _ _ _ _ hs
      rw [new_a_cols] at hl
      rw [← h]
      exact hl

/-- C3 (amended): tableau construction counts TWO extra columns for every
`Leq`/`Geq` constraint (only one of which is populated), so `A` has
`n_vars + 2·k` columns for `k` inequality constraints, not `n_vars + k`. -/
theorem c3_total_columns :
    ∀ model : Model,
      (SimplexState.new model).a.cols
        = model.vars.length + 2 * countIneq model.constraints :=
  new_a_cols

/-- C3 (counterexample): a model with one variable and one `Leq` constraint
gets a tableau with `3` columns, not `n_vars + k = 2`. -/
theorem c3_counterexample :
    (SimplexState.new singleLeqModel).a.cols = 3
    ∧ singleLeqModel.vars.length = 1
    ∧ countIneq singleLeqModel.constraints = 1 :=
  ⟨rfl, rfl, rfl⟩

set_option maxHeartbeats 4000000 in
theorem solve_exampleBounded_eval :
    SimplexSolver.default.solve exampleBoundedModel
      = .ok ⟨[10, 10, 0, 0, 0], some 20, .Optimal⟩ := by
  norm_num [SimplexSolver.solve, SimplexSolver.default, check_lp, SimplexState.solve_lp,
    SimplexState.new, ntotalStep, setTerms, tableauStep, SimplexState.init_basis, colScan,
    SimplexState.try_phase2, SimplexState.build_bmat, SimplexState.compute_basic_solution,
    DenseMatrix.gaussianElimination, elimLoop, elimStep, pivotSelect, augRowGet, listSwap,
    qabs, eps12, eps15, upto, DenseMatrix.new, DenseMatrix.get, DenseMatrix.set,
    SimplexState.remove_artificial_from_basis, raf_go, SimplexState.run_simplex,
    run_simplex_go, SimplexState.compute_duals, SimplexState.reduced_cost,
    candList, pickMax, pickEntering, SimplexState.choose_entering,
    SimplexState.compute_direction, pickMin, SimplexState.choose_leaving,
    SimplexState.update_primal, SimplexState.pivot, SimplexState.update_objective,
    SimplexState.phase1, SimplexState.setup_phase1, SimplexState.phase2,
    SimplexState.extract_solution, SimplexState.writeBasicRow, LinExpr.ofVar, LinExpr.new,
    LinExpr.add, VarId.mulF, Objective.maximize, Constraint.geq, Constraint.leq,
    List.mapIdx_cons, List.replicate_succ, List.filterMap_cons, List.find?, List.zip,
    List.zipWith, List.set_cons_zero, List.set_cons_succ, Option.some_ne_none,
    List.getElem_set, List.getD_cons_zero, List.getD_cons_succ, List.getElem_cons_zero,
    List.getElem_cons_succ, exampleBoundedModel]

/-- C1 (counterexample): on the one-variable doc-example model the solver
returns status Optimal with a 5-entry values vector, not a 1-entry one. -/
theorem c1_counterexample :
    SimplexSolver.default.solve exampleBoundedModel
      = .ok ⟨[10, 10, 0, 0, 0], some 20, .Optimal⟩
    ∧ exampleBoundedModel.vars.length = 1 :=
  ⟨solve_exampleBounded_eval, rfl⟩

/-- C1 witness: the amended length law instantiated on the doc-example model
(5 = 1 + 2·2). -/
theorem c1_values_length_witness :
    (Solution.mk [10, 10, 0, 0, 0] (some 20) .Optimal).values.length
      = exampleBoundedModel.vars.length + 2 * countIneq exampleBoundedModel.constraints :=
  c1_values_length SimplexSolver.default exampleBoundedModel _ solve_exampleBounded_eval

theorem solve_triv_eval :
    SimplexSolver.default.solve trivModel = .ok ⟨[], some 0, .Optimal⟩ := rfl

/-- C9 witness: the objective-value law instantiated on the trivial model. -/
theorem c9_objective_value_some_witness :
    ∃ q, (Solution.mk [] (some 0) .Optimal).objective_value = some q :=
  c9_objective_value_some SimplexSolver.default trivModel _ solve_triv_eval

set_option maxHeartbeats 4000000 in
/-- C2: on the infeasible model x ≤ 1 ∧ x ≥ 2, phase 1 does set status
Infeasible, but the solver still runs phase 2, which overwrites the status:
the returned Solution reports Optimal on a model no assignment satisfies. -/
theorem c2_infeasible_overwritten :
    exceptStatus
        ((SimplexState.new infeasibleModel).init_basis.phase1 5 1000 (1 / 100000000))
      = some .Infeasible
    ∧ SimplexSolver.default.solve infeasibleModel
      = .ok ⟨[1, 0, 0, 0, 0], some 0, .Optimal⟩
    ∧ ∀ σ : VarId → ℚ, ¬ infeasibleModel.Satisfies σ := by
  refine ⟨?_, ?_, ?_⟩
  · norm_num [SimplexSolver.solve, SimplexSolver.default, check_lp, SimplexState.solve_lp,
    SimplexState.new, ntotalStep, setTerms, tableauStep, SimplexState.init_basis, colScan,
    SimplexState.try_phase2, SimplexState.build_bmat, SimplexState.compute_basic_solution,
    DenseMatrix.gaussianElimination, elimLoop, elimStep, pivotSelect, augRowGet, listSwap,
    qabs, eps12, eps15, upto, DenseMatrix.new, DenseMatrix.get, DenseMatrix.set,
    SimplexState.remove_artificial_from_basis, raf_go, SimplexState.run_simplex,
    run_simplex_go, SimplexState.compute_duals, SimplexState.reduced_cost,
    candList, pickMax, pickEntering, SimplexState.choose_entering,
    SimplexState.compute_direction, pickMin, SimplexState.choose_leaving,
    SimplexState.update_primal, SimplexState.pivot, SimplexState.update_objective,
    SimplexState.phase1, SimplexState.setup_phase1, SimplexState.phase2,
    SimplexState.extract_solution, SimplexState.writeBasicRow, LinExpr.ofVar, LinExpr.new,
    LinExpr.add, VarId.mulF, Objective.maximize, Constraint.geq, Constraint.leq,
    List.mapIdx_cons, List.replicate_succ, List.filterMap_cons, List.find?, List.zip,
    List.zipWith, List.set_cons_zero, List.set_cons_succ, Option.some_ne_none,
    List.getElem_set, List.getD_cons_zero, List.getD_cons_succ, List.getElem_cons_zero,
    List.getElem_cons_succ, exceptStatus, infeasibleModel]
  · norm_num [SimplexSolver.solve, SimplexSolver.default, check_lp, SimplexState.solve_lp,
    SimplexState.new, ntotalStep, setTerms, tableauStep, SimplexState.init_basis, colScan,
    SimplexState.try_phase2, SimplexState.build_bmat, SimplexState.compute_basic_solution,
    DenseMatrix.gaussianElimination, elimLoop, elimStep, pivotSelect, augRowGet, listSwap,
    qabs, eps12, eps15, upto, DenseMatrix.new, DenseMatrix.get, DenseMatrix.set,
    SimplexState.remove_artificial_from_basis, raf_go, SimplexState.run_simplex,
    run_simplex_go, SimplexState.compute_duals, SimplexState.reduced_cost,
    candList, pickMax, pickEntering, SimplexState.choose_entering,
    SimplexState.compute_direction, pickMin, SimplexState.choose_leaving,
    SimplexState.update_primal, SimplexState.pivot, SimplexState.update_objective,
    SimplexState.phase1, SimplexState.setup_phase1, SimplexState.phase2,
    SimplexState.extract_solution, SimplexState.writeBasicRow, LinExpr.ofVar, LinExpr.new,
    LinExpr.add, VarId.mulF, Objective.maximize, Constraint.geq, Constraint.leq,
    List.mapIdx_cons, List.replicate_succ, List.filterMap_cons, List.find?, List.zip,
    List.zipWith, List.set_cons_zero, List.set_cons_succ, Option.some_ne_none,
    List.getElem_set, List.getD_cons_zero, List.getD_cons_succ, List.getElem_cons_zero,
    List.getElem_cons_succ, infeasibleModel]
  · intro σ h
    have h1 := h (Constraint.leq (LinExpr.ofVar 0) 1) (by simp [infeasibleModel])
    have h2 := h (Constraint.geq (LinExpr.ofVar 0) 2) (by simp [infeasibleModel])
    simp [Constraint.holds, Constraint.leq, Constraint.geq, LinExpr.eval, LinExpr.ofVar,
      LinExpr.new] at h1 h2
    linarith

set_option maxHeartbeats 4000000 in
/-- C4: tableau construction overwrites (does not sum) duplicate VarId
coefficients: for x + x ≤ 2 it stores A[0,0] = 1 though the expression is
semantically 2·x, and for maximize 3·x + 4·x it stores c[0] = 4 though the
objective is semantically 7·x; the returned "Optimal" point then violates
the model's own constraint. -/
theorem c4_duplicate_terms_overwritten :
    (SimplexState.new duplicateTermsModel).a.get 0 0 = 1
    ∧ (∀ σ : VarId → ℚ,
        (duplicateTermsModel.constraints.headD (Constraint.eqc ⟨[], 0⟩ 0)).expr.eval σ
          = 2 * σ 0)
    ∧ (SimplexState.new duplicateTermsModel).c.getD 0 0 = 4
    ∧ (∀ σ : VarId → ℚ, ∀ obj ∈ duplicateTermsModel.objective,
        obj.expr.eval σ = 7 * σ 0)
    ∧ SimplexSolver.default.solve duplicateTermsModel
      = .ok ⟨[2, 0, 0], some 8, .Optimal⟩
    ∧ ¬ duplicateTermsModel.Satisfies (fun v => ([2, 0, 0] : List ℚ).getD v 0) := by
  refine ⟨?_, ?_, ?_, ?_, ?_, ?_⟩
  · norm_num [SimplexSolver.solve, SimplexSolver.default, check_lp, SimplexState.solve_lp,
    SimplexState.new, ntotalStep, setTerms, tableauStep, SimplexState.init_basis, colScan,
    SimplexState.try_phase2, SimplexState.build_bmat, SimplexState.compute_basic_solution,
    DenseMatrix.gaussianElimination, elimLoop, elimStep, pivotSelect, augRowGet, listSwap,
    qabs, eps12, eps15, upto, DenseMatrix.new, DenseMatrix.get, DenseMatrix.set,
    SimplexState.remove_artificial_from_basis, raf_go, SimplexState.run_simplex,
    run_simplex_go, SimplexState.compute_duals, SimplexState.reduced_cost,
    candList, pickMax, pickEntering, SimplexState.choose_entering,
    SimplexState.compute_direction, pickMin, SimplexState.choose_leaving,
    SimplexState.update_primal, SimplexState.pivot, SimplexState.update_objective,
    SimplexState.phase1, SimplexState.setup_phase1, SimplexState.phase2,
    SimplexState.extract_solution, SimplexState.writeBasicRow, LinExpr.ofVar, LinExpr.new,
    LinExpr.add, VarId.mulF, Objective.maximize, Constraint.geq, Constraint.leq,
    List.mapIdx_cons, List.replicate_succ, List.filterMap_cons, List.find?, List.zip,
    List.zipWith, List.set_cons_zero, List.set_cons_succ, Option.some_ne_none,
    List.getElem_set, List.getD_cons_zero, List.getD_cons_succ, List.getElem_cons_zero,
    List.getElem_cons_succ, duplicateTermsModel]
  · intro σ
    simp [duplicateTermsModel, Constraint.leq, LinExpr.ofVar, LinExpr.new, LinExpr.add,
      LinExpr.eval]
    ring
  · norm_num [SimplexSolver.solve, SimplexSolver.default, check_lp, SimplexState.solve_lp,
    SimplexState.new, ntotalStep, setTerms, tableauStep, SimplexState.init_basis, colScan,
    SimplexState.try_phase2, SimplexState.build_bmat, SimplexState.compute_basic_solution,
    DenseMatrix.gaussianElimination, elimLoop, elimStep, pivotSelect, augRowGet, listSwap,
    qabs, eps12, eps15, upto, DenseMatrix.new, DenseMatrix.get, DenseMatrix.set,
    SimplexState.remove_artificial_from_basis, raf_go, SimplexState.run_simplex,
    run_simplex_go, SimplexState.compute_duals, SimplexState.reduced_cost,
    candList, pickMax, pickEntering, SimplexState.choose_entering,
    SimplexState.compute_direction, pickMin, SimplexState.choose_leaving,
    SimplexState.update_primal, SimplexState.pivot, SimplexState.update_objective,
    SimplexState.phase1, SimplexState.setup_phase1, SimplexState.phase2,
    SimplexState.extract_solution, SimplexState.writeBasicRow, LinExpr.ofVar, LinExpr.new,
    LinExpr.add, VarId.mulF, Objective.maximize, Constraint.geq, Constraint.leq,
    List.mapIdx_cons, List.replicate_succ, List.filterMap_cons, List.find?, List.zip,
    List.zipWith, List.set_cons_zero, List.set_cons_succ, Option.some_ne_none,
    List.getElem_set, List.getD_cons_zero, List.getD_cons_succ, List.getElem_cons_zero,
    List.getElem_cons_succ, duplicateTermsModel]
  · intro σ obj hobj
    simp [duplicateTermsModel, Objective.maximize] at hobj
    subst hobj
    simp [VarId.mulF, LinExpr.new, LinExpr.add, LinExpr.eval]
    ring
  · norm_num [SimplexSolver.solve, SimplexSolver.default, check_lp, SimplexState.solve_lp,
    SimplexState.new, ntotalStep, setTerms, tableauStep, SimplexState.init_basis, colScan,
    SimplexState.try_phase2, SimplexState.build_bmat, SimplexState.compute_basic_solution,
    DenseMatrix.gaussianElimination, elimLoop, elimStep, pivotSelect, augRowGet, listSwap,
    qabs, eps12, eps15, upto, DenseMatrix.new, DenseMatrix.get, DenseMatrix.set,
    SimplexState.remove_artificial_from_basis, raf_go, SimplexState.run_simplex,
    run_simplex_go, SimplexState.compute_duals, SimplexState.reduced_cost,
    candList, pickMax, pickEntering, SimplexState.choose_entering,
    SimplexState.compute_direction, pickMin, SimplexState.choose_leaving,
    SimplexState.update_primal, SimplexState.pivot, SimplexState.update_objective,
    SimplexState.phase1, SimplexState.setup_phase1, SimplexState.phase2,
    SimplexState.extract_solution, SimplexState.writeBasicRow, LinExpr.ofVar, LinExpr.new,
    LinExpr.add, VarId.mulF, Objective.maximize, Constraint.geq, Constraint.leq,
    List.mapIdx_cons, List.replicate_succ, List.filterMap_cons, List.find?, List.zip,
    List.zipWith, List.set_cons_zero, List.set_cons_succ, Option.some_ne_none,
    List.getElem_set, List.getD_cons_zero, List.getD_cons_succ, List.getElem_cons_zero,
    List.getElem_cons_succ, duplicateTermsModel]
  · intro h
    have h1 := h (Constraint.leq ((LinExpr.ofVar 0).add (LinExpr.ofVar 0)) 2)
      (by simp [duplicateTermsModel])
    norm_num [Constraint.holds, Constraint.leq, LinExpr.eval, LinExpr.ofVar, LinExpr.new,
      LinExpr.add] at h1

set_option maxHeartbeats 2000000 in
theorem sTie_choose_entering_eval :
    sTie.choose_entering [0, 0] (1 / 100000000) = some (1, 1) := by
  norm_num [SimplexSolver.solve, SimplexSolver.default, check_lp, SimplexState.solve_lp,
    SimplexState.new, ntotalStep, setTerms, tableauStep, SimplexState.init_basis, colScan,
    SimplexState.try_phase2, SimplexState.build_bmat, SimplexState.compute_basic_solution,
    DenseMatrix.gaussianElimination, elimLoop, elimStep, pivotSelect, augRowGet, listSwap,
    qabs, eps12, eps15, upto, DenseMatrix.new, DenseMatrix.get, DenseMatrix.set,
    SimplexState.remove_artificial_from_basis, raf_go, SimplexState.run_simplex,
    run_simplex_go, SimplexState.compute_duals, SimplexState.reduced_cost,
    candList, pickMax, pickEntering, SimplexState.choose_entering,
    SimplexState.compute_direction, pickMin, SimplexState.choose_leaving,
    SimplexState.update_primal, SimplexState.pivot, SimplexState.update_objective,
    SimplexState.phase1, SimplexState.setup_phase1, SimplexState.phase2,
    SimplexState.extract_solution, SimplexState.writeBasicRow, LinExpr.ofVar, LinExpr.new,
    LinExpr.add, VarId.mulF, Objective.maximize, Constraint.geq, Constraint.leq,
    List.mapIdx_cons, List.replicate_succ, List.filterMap_cons, List.find?, List.zip,
    List.zipWith, List.set_cons_zero, List.set_cons_succ, Option.some_ne_none,
    List.getElem_set, List.getD_cons_zero, List.getD_cons_succ, List.getElem_cons_zero,
    List.getElem_cons_succ, sTie, tieModel]

set_option maxHeartbeats 2000000 in
/-- C6 (counterexample): on tieModel's first pricing pass both non-basic
columns 0 and 1 have reduced cost 1 (a tie above tol), and the engine picks
position 1 / column 1 — the LAST tied candidate, not the earliest. -/
theorem c6_counterexample :
    sTie.non_basis = [0, 1, 4, 5]
    ∧ sTie.compute_duals sTie.build_bmat = .ok [0, 0]
    ∧ sTie.reduced_cost [0, 0] 0 = 1
    ∧ sTie.reduced_cost [0, 0] 1 = 1
    ∧ (1 / 100000000 : ℚ) < 1
    ∧ sTie.choose_entering [0, 0] (1 / 100000000) = some (1, 1) := by
  refine ⟨?_, ?_, ?_, ?_, by norm_num, sTie_choose_entering_eval⟩
  · norm_num [SimplexSolver.solve, SimplexSolver.default, check_lp, SimplexState.solve_lp,
    SimplexState.new, ntotalStep, setTerms, tableauStep, SimplexState.init_basis, colScan,
    SimplexState.try_phase2, SimplexState.build_bmat, SimplexState.compute_basic_solution,
    DenseMatrix.gaussianElimination, elimLoop, elimStep, pivotSelect, augRowGet, listSwap,
    qabs, eps12, eps15, upto, DenseMatrix.new, DenseMatrix.get, DenseMatrix.set,
    SimplexState.remove_artificial_from_basis, raf_go, SimplexState.run_simplex,
    run_simplex_go, SimplexState.compute_duals, SimplexState.reduced_cost,
    candList, pickMax, pickEntering, SimplexState.choose_entering,
    SimplexState.compute_direction, pickMin, SimplexState.choose_leaving,
    SimplexState.update_primal, SimplexState.pivot, SimplexState.update_objective,
    SimplexState.phase1, SimplexState.setup_phase1, SimplexState.phase2,
    SimplexState.extract_solution, SimplexState.writeBasicRow, LinExpr.ofVar, LinExpr.new,
    LinExpr.add, VarId.mulF, Objective.maximize, Constraint.geq, Constraint.leq,
    List.mapIdx_cons, List.replicate_succ, List.filterMap_cons, List.find?, List.zip,
    List.zipWith, List.set_cons_zero, List.set_cons_succ, Option.some_ne_none,
    List.getElem_set, List.getD_cons_zero, List.getD_cons_succ, List.getElem_cons_zero,
    List.getElem_cons_succ, sTie, tieModel]
  · norm_num [SimplexSolver.solve, SimplexSolver.default, check_lp, SimplexState.solve_lp,
    SimplexState.new, ntotalStep, setTerms, tableauStep, SimplexState.init_basis, colScan,
    SimplexState.try_phase2, SimplexState.build_bmat, SimplexState.compute_basic_solution,
    DenseMatrix.gaussianElimination, elimLoop, elimStep, pivotSelect, augRowGet, listSwap,
    qabs, eps12, eps15, upto, DenseMatrix.new, DenseMatrix.get, DenseMatrix.set,
    SimplexState.remove_artificial_from_basis, raf_go, SimplexState.run_simplex,
    run_simplex_go, SimplexState.compute_duals, SimplexState.reduced_cost,
    candList, pickMax, pickEntering, SimplexState.choose_entering,
    SimplexState.compute_direction, pickMin, SimplexState.choose_leaving,
    SimplexState.update_primal, SimplexState.pivot, SimplexState.update_objective,
    SimplexState.phase1, SimplexState.setup_phase1, SimplexState.phase2,
    SimplexState.extract_solution, SimplexState.writeBasicRow, LinExpr.ofVar, LinExpr.new,
    LinExpr.add, VarId.mulF, Objective.maximize, Constraint.geq, Constraint.leq,
    List.mapIdx_cons, List.replicate_succ, List.filterMap_cons, List.find?, List.zip,
    List.zipWith, List.set_cons_zero, List.set_cons_succ, Option.some_ne_none,
    List.getElem_set, List.getD_cons_zero, List.getD_cons_succ, List.getElem_cons_zero,
    List.getElem_cons_succ, sTie, tieModel]
  · norm_num [SimplexSolver.solve, SimplexSolver.default, check_lp, SimplexState.solve_lp,
    SimplexState.new, ntotalStep, setTerms, tableauStep, SimplexState.init_basis, colScan,
    SimplexState.try_phase2, SimplexState.build_bmat, SimplexState.compute_basic_solution,
    DenseMatrix.gaussianElimination, elimLoop, elimStep, pivotSelect, augRowGet, listSwap,
    qabs, eps12, eps15, upto, DenseMatrix.new, DenseMatrix.get, DenseMatrix.set,
    SimplexState.remove_artificial_from_basis, raf_go, SimplexState.run_simplex,
    run_simplex_go, SimplexState.compute_duals, SimplexState.reduced_cost,
    candList, pickMax, pickEntering, SimplexState.choose_entering,
    SimplexState.compute_direction, pickMin, SimplexState.choose_leaving,
    SimplexState.update_primal, SimplexState.pivot, SimplexState.update_objective,
    SimplexState.phase1, SimplexState.setup_phase1, SimplexState.phase2,
    SimplexState.extract_solution, SimplexState.writeBasicRow, LinExpr.ofVar, LinExpr.new,
    LinExpr.add, VarId.mulF, Objective.maximize, Constraint.geq, Constraint.leq,
    List.mapIdx_cons, List.replicate_succ, List.filterMap_cons, List.find?, List.zip,
    List.zipWith, List.set_cons_zero, List.set_cons_succ, Option.some_ne_none,
    List.getElem_set, List.getD_cons_zero, List.getD_cons_succ, List.getElem_cons_zero,
    List.getElem_cons_succ, sTie, tieModel]
  · norm_num [SimplexSolver.solve, SimplexSolver.default, check_lp, SimplexState.solve_lp,
    SimplexState.new, ntotalStep, setTerms, tableauStep, SimplexState.init_basis, colScan,
    SimplexState.try_phase2, SimplexState.build_bmat, SimplexState.compute_basic_solution,
    DenseMatrix.gaussianElimination, elimLoop, elimStep, pivotSelect, augRowGet, listSwap,
    qabs, eps12, eps15, upto, DenseMatrix.new, DenseMatrix.get, DenseMatrix.set,
    SimplexState.remove_artificial_from_basis, raf_go, SimplexState.run_simplex,
    run_simplex_go, SimplexState.compute_duals, SimplexState.reduced_cost,
    candList, pickMax, pickEntering, SimplexState.choose_entering,
    SimplexState.compute_direction, pickMin, SimplexState.choose_leaving,
    SimplexState.update_primal, SimplexState.pivot, SimplexState.update_objective,
    SimplexState.phase1, SimplexState.setup_phase1, SimplexState.phase2,
    SimplexState.extract_solution, SimplexState.writeBasicRow, LinExpr.ofVar, LinExpr.new,
    LinExpr.add, VarId.mulF, Objective.maximize, Constraint.geq, Constraint.leq,
    List.mapIdx_cons, List.replicate_succ, List.filterMap_cons, List.find?, List.zip,
    List.zipWith, List.set_cons_zero, List.set_cons_succ, Option.some_ne_none,
    List.getElem_set, List.getD_cons_zero, List.getD_cons_succ, List.getElem_cons_zero,
    List.getElem_cons_succ, sTie, tieModel]

theorem pickMax_go_eq :
    ∀ (xs : List (Nat × Nat × ℚ)) (a : Nat × Nat × ℚ),
      xs.foldl
        (fun acc x => match acc with
          | none => some x
          | some y => if x.2.2 < y.2.2 then some y else some x)
        (some a) = some (pickMaxGo a xs) := by
  intro xs
  induction xs with
  | nil => intro a; rfl
  | cons x rest ih =>
    intro a
    rw [List.foldl_cons]
    show rest.foldl _ (if x.2.2 < a.2.2 then some a else some x) = _
    rw [pickMaxGo]
    by_cases hc : x.2.2 < a.2.2
    · rw [if_pos hc, if_pos hc, ih]
    · rw [if_neg hc, if_neg hc, ih]

theorem pickMax_cons (x : Nat × Nat × ℚ) (xs : List (Nat × Nat × ℚ)) :
    pickMax (x :: xs) = some (pickMaxGo x xs) := by
  unfold pickMax
  rw [List.foldl_cons]
  exact pickMax_go_eq xs x

theorem pickMax_eq_none (l : List (Nat × Nat × ℚ)) : pickMax l = none ↔ l = [] := by
  cases l with
  | nil => simp [pickMax]
  | cons x xs => rw [pickMax_cons]; simp

theorem pickMaxGo_spec :
    ∀ (xs : List (Nat × Nat × ℚ)) (a : Nat × Nat × ℚ),
      (pickMaxGo a xs = a ∨ pickMaxGo a xs ∈ xs)
      ∧ a.2.2 ≤ (pickMaxGo a xs).2.2
      ∧ (∀ u ∈ xs, u.2.2 ≤ (pickMaxGo a xs).2.2) := by
  intro xs
  induction xs with
  | nil => intro a; exact ⟨Or.inl rfl, le_refl _, by simp⟩
  | cons y ys ih =>
    intro a
    by_cases hc : y.2.2 < a.2.2
    · have h := ih a
      rw [pickMaxGo, if_pos hc]
      refine ⟨?_, h.2.1, ?_⟩
      · rcases h.1 with h1 | h1
        · exact Or.inl h1
        · exact Or.inr (List.mem_cons_of_mem _ h1)
      · intro u hu
        rcases List.mem_cons.mp hu with h1 | h1
        · exact h1 ▸ le_trans (le_of_lt hc) h.2.1
        · exact h.2.2 u h1
    · have h := ih y
      rw [pickMaxGo, if_neg hc]
      refine ⟨?_, le_trans (le_of_not_lt hc) h.2.1, ?_⟩
      · rcases h.1 with h1 | h1
        · exact Or.inr (by rw [h1]; exact List.mem_cons_self _ _)
        · exact Or.inr (List.mem_cons_of_mem _ h1)
      · intro u hu
        rcases List.mem_cons.mp hu with h1 | h1
        · exact h1 ▸ h.2.1
        · exact h.2.2 u h1

theorem pickMaxGo_tie :
    ∀ (xs : List (Nat × Nat × ℚ)) (a : Nat × Nat × ℚ),
      (∀ u ∈ xs, a.1 < u.1) → xs.Pairwise (fun u v => u.1 < v.1) →
      ∀ u, (u = a ∨ u ∈ xs) → u.2.2 = (pickMaxGo a xs).2.2 →
        u.1 ≤ (pickMaxGo a xs).1 := by
  intro xs
  induction xs with
  | nil =>
    intro a _ _ u hu hk
    rcases hu with h | h
    · exact h ▸ le_refl _
    · simp at h
  | cons y ys ih =>
    intro a hlt hpw u hu hk
    have hpw' := List.pairwise_cons.mp hpw
    by_cases hc : y.2.2 < a.2.2
    · rw [pickMaxGo, if_pos hc] at hk ⊢
      have hlt' : ∀ v ∈ ys, a.1 < v.1 := fun v hv => hlt v (List.mem_cons_of_mem _ hv)
      rcases hu with h | h
      · exact ih a hlt' hpw'.2 u (Or.inl h) hk
      · rcases List.mem_cons.mp h with h1 | h1
        · exfalso
          have hspec := (pickMaxGo_spec ys a).2.1
          rw [h1] at hk
          exact absurd hk (ne_of_lt (lt_of_lt_of_le hc hspec))
        · exact ih a hlt' hpw'.2 u (Or.inr h1) hk
    · rw [pickMaxGo, if_neg hc] at hk ⊢
      rcases hu with h | h
      · subst h
        rcases (pickMaxGo_spec ys y).1 with hr | hr
        · rw [hr]
          exact le_of_lt (hlt y (List.mem_cons_self _ _))
        · exact le_of_lt (hlt _ (List.mem_cons_of_mem _ hr))
      · rcases List.mem_cons.mp h with h1 | h1
        · exact ih y hpw'.1 hpw'.2 u (Or.inl h1) hk
        · exact ih y hpw'.1 hpw'.2 u (Or.inr h1) hk

theorem candList_mem (rc : Nat → ℚ) (tol : ℚ) :
    ∀ (l : List Nat) (pos0 : Nat) (p jv : Nat) (r : ℚ),
      (p, jv, r) ∈ candList rc tol pos0 l ↔
        ∃ i, l.get? i = some jv ∧ p = pos0 + i ∧ r = rc jv ∧ tol < rc jv := by
  intro l
  induction l with
  | nil => intro pos0 p jv r; simp [candList]
  | cons j rest ih =>
    intro pos0 p jv r
    rw [candList, List.mem_append]
    constructor
    · intro h
      rcases h with h | h
      · by_cases hrc : tol < rc j
        · rw [if_pos hrc] at h
          have h' := List.mem_singleton.mp h
          simp only [Prod.mk.injEq] at h'
          obtain ⟨h1, h2, h3⟩ := h'
          refine ⟨0, ?_, by omega, by rw [h3, h2], h2 ▸ hrc⟩
          rw [List.get?_cons_zero, h2]
        · rw [if_neg hrc] at h; simp at h
      · obtain ⟨i, h1, h2, h3, h4⟩ := (ih (pos0 + 1) p jv r).mp h
        exact ⟨i + 1, by rw [List.get?_cons_succ]; exact h1, by omega, h3, h4⟩
    · rintro ⟨i, h1, h2, h3, h4⟩
      cases i with
      | zero =>
        rw [List.get?_cons_zero] at h1
        injection h1 with h1
        subst h1
        left
        rw [if_pos h4]
        simp only [List.mem_singleton, Prod.mk.injEq]
        exact ⟨by omega, trivial, h3⟩
      | succ k =>
        right
        rw [List.get?_cons_succ] at h1
        exact (ih (pos0 + 1) p jv r).mpr ⟨k, h1, by omega, h3, h4⟩

theorem candList_pos_lb (rc : Nat → ℚ) (tol : ℚ) :
    ∀ (l : List Nat) (pos0 : Nat), ∀ u ∈ candList rc tol pos0 l, pos0 ≤ u.1 := by
  intro l
  induction l with
  | nil => intro pos0 u hu; simp [candList] at hu
  | cons j rest ih =>
    intro pos0 u hu
    rw [candList, List.mem_append] at hu
    rcases hu with h | h
    · by_cases hrc : tol < rc j
      · rw [if_pos hrc] at h
        have h' := List.mem_singleton.mp h
        subst h'
        exact Nat.le_refl pos0
      · rw [if_neg hrc] at h; simp at h
    · exact le_trans (by omega) (ih (pos0 + 1) u h)

theorem candList_pairwise (rc : Nat → ℚ) (tol : ℚ) :
    ∀ (l : List Nat) (pos0 : Nat),
      (candList rc tol pos0 l).Pairwise (fun u v => u.1 < v.1) := by
  intro l
  induction l with
  | nil => intro pos0; simp [candList]
  | cons j rest ih =>
    intro pos0
    rw [candList]
    apply List.pairwise_append.mpr
    refine ⟨?_, ih (pos0 + 1), ?_⟩
    · split <;> simp
    · intro u hu v hv
      have hv' := candList_pos_lb rc tol rest (pos0 + 1) v hv
      by_cases hrc : tol < rc j
      · rw [if_pos hrc] at hu
        have h' := List.mem_singleton.mp hu
        subst h'
        show pos0 < v.1
        omega
      · rw [if_neg hrc] at hu; simp at hu

theorem candList_nil_iff (rc : Nat → ℚ) (tol : ℚ) :
    ∀ (l : List Nat) (pos0 : Nat),
      candList rc tol pos0 l = [] ↔ ∀ j ∈ l, rc j ≤ tol := by
  intro l
  induction l with
  | nil => intro pos0; simp [candList]
  | cons j rest ih =>
    intro pos0
    rw [candList]
    simp only [List.append_eq_nil]
    constructor
    · rintro ⟨h1, h2⟩
      intro v hv
      rcases List.mem_cons.mp hv with hh | hh
      · subst hh
        by_contra hgt
        rw [if_pos (not_le.mp hgt)] at h1
        simp at h1
      · exact (ih (pos0 + 1)).mp h2 v hh
    · intro h
      refine ⟨?_, (ih (pos0 + 1)).mpr fun v hv => h v (List.mem_cons_of_mem _ hv)⟩
      rw [if_neg (not_lt.mpr (h j (List.mem_cons_self _ _)))]

theorem pickEntering_spec (rc : Nat → ℚ) (tol : ℚ) (nb : List Nat) :
    (pickEntering rc tol nb = none → ∀ pos j, nb.get? pos = some j → rc j ≤ tol)
    ∧ (∀ pos j, pickEntering rc tol nb = some (pos, j) →
        nb.get? pos = some j ∧ tol < rc j ∧
        ∀ pos' j', nb.get? pos' = some j' → tol < rc j' →
          (rc j' < rc j ∨ (rc j' = rc j ∧ pos' ≤ pos))) := by
  constructor
  · intro h pos j hget
    unfold pickEntering at h
    cases hp : pickMax (candList rc tol 0 nb) with
    | some t => rw [hp] at h; exact absurd h (by simp)
    | none =>
      have hnil := (pickMax_eq_none _).mp hp
      exact (candList_nil_iff rc tol nb 0).mp hnil j (List.get?_mem hget)
  · intro pos j h
    unfold pickEntering at h
    cases hp : pickMax (candList rc tol 0 nb) with
    | none => rw [hp] at h; exact absurd h (by simp)
    | some t =>
      rw [hp] at h
      injection h with h
      simp only [Prod.mk.injEq] at h
      obtain ⟨hp1, hp2⟩ := h
      cases hc : candList rc tol 0 nb with
      | nil => rw [hc] at hp; simp [pickMax] at hp
      | cons x xs =>
        rw [hc, pickMax_cons] at hp
        injection hp with hp
        have hspec := pickMaxGo_spec xs x
        have hmem : t ∈ candList rc tol 0 nb := by
          rw [hc]
          rcases hspec.1 with hh | hh
          · rw [← hp, hh]; exact List.mem_cons_self _ _
          · rw [← hp]; exact List.mem_cons_of_mem _ hh
        obtain ⟨i, hgi, hpi, hri, hgt⟩ :=
          (candList_mem rc tol nb 0 t.1 t.2.1 t.2.2).mp hmem
        refine ⟨?_, ?_, ?_⟩
        · rw [← hp1, ← hp2, show t.1 = i by omega]
          exact hgi
        · rw [← hp2]; exact hgt
        · intro pos' j' hget' hgt'
          have hmem2 : (pos', j', rc j') ∈ candList rc tol 0 nb :=
            (candList_mem rc tol nb 0 pos' j' (rc j')).mpr ⟨pos', hget', by omega, rfl, hgt'⟩
          have hmax : rc j' ≤ t.2.2 := by
            rw [hc] at hmem2
            rcases List.mem_cons.mp hmem2 with hh | hh
            · rw [← hp]
              have hx2 : rc j' = x.2.2 := by rw [← hh]
              rw [hx2]
              exact hspec.2.1
            · rw [← hp]
              exact hspec.2.2 _ hh
          rw [hri, hp2] at hmax
          rcases lt_or_eq_of_le hmax with hlt | heq
          · exact Or.inl hlt
          · right
            refine ⟨heq, ?_⟩
            have hpw := candList_pairwise rc tol nb 0
            rw [hc] at hpw
            have hpw' := List.pairwise_cons.mp hpw
            have hmemx : (pos', j', rc j') = x ∨ (pos', j', rc j') ∈ xs := by
              have := hmem2
              rw [hc] at this
              exact List.mem_cons.mp this
            have hkey : (pos', j', rc j').2.2 = (pickMaxGo x xs).2.2 := by
              rw [hp]
              show rc j' = t.2.2
              rw [hri, hp2]
              exact heq
            have htie := pickMaxGo_tie xs x hpw'.1 hpw'.2 (pos', j', rc j') hmemx hkey
            rw [hp] at htie
            show pos' ≤ pos
            rw [← hp1]
            exact htie

/-- C6 (amended): the entering variable is the non-basic column with the
largest reduced cost among those exceeding `tol`, with ties broken by the
LATEST position in `non_basis` (Rust `max_by` keeps the last maximum); when
no reduced cost exceeds `tol`, the pricing returns nothing and the main loop
sets status `Optimal` and returns. -/
theorem c6_entering_selection (s : SimplexState) (pi : List ℚ) (tol : ℚ) :
    (s.choose_entering pi tol = none →
      ∀ pos j, s.non_basis.get? pos = some j → s.reduced_cost pi j ≤ tol)
    ∧ (∀ pos j, s.choose_entering pi tol = some (pos, j) →
        s.non_basis.get? pos = some j ∧ tol < s.reduced_cost pi j ∧
        ∀ pos' j', s.non_basis.get? pos' = some j' → tol < s.reduced_cost pi j' →
          (s.reduced_cost pi j' < s.reduced_cost pi j
            ∨ (s.reduced_cost pi j' = s.reduced_cost pi j ∧ pos' ≤ pos)))
    ∧ (∀ (bmat : DenseMatrix) (maxIter fuel : Nat),
        s.compute_duals bmat = .ok pi → s.choose_entering pi tol = none →
        run_simplex_go maxIter tol (fuel + 1) s bmat =
          .ok ({ s with iteration := maxIter - (fuel + 1), status := .Optimal }, bmat)) := by
  refine ⟨(pickEntering_spec (s.reduced_cost pi) tol s.non_basis).1,
    (pickEntering_spec (s.reduced_cost pi) tol s.non_basis).2, ?_⟩
  intro bmat maxIter fuel hd hch
  have e1 : ({ s with iteration := maxIter - (fuel + 1) } : SimplexState).compute_duals bmat
      = s.compute_duals bmat := rfl
  have e2 : ({ s with iteration := maxIter - (fuel + 1) } : SimplexState).choose_entering pi tol
      = s.choose_entering pi tol := rfl
  simp only [run_simplex_go]
  rw [e1, hd]
  dsimp only
  rw [e2, hch]

/-- C6 witness: the amended selection law applied to the concrete tie state of
`tieModel`, whose pricing picked position 1 / column 1. -/
theorem c6_entering_selection_witness :
    sTie.non_basis.get? 1 = some 1
    ∧ (1 / 100000000 : ℚ) < sTie.reduced_cost [0, 0] 1 := by
  have h := (c6_entering_selection sTie [0, 0] (1 / 100000000)).2.1 1 1
    sTie_choose_entering_eval
  exact ⟨h.1, h.2.1⟩

theorem getD_map' (f : α → β) (d : α) :
    ∀ (l : List α) (i : Nat), (l.map f).getD i (f d) = f (l.getD i d) := by
  intro l
  induction l with
  | nil => intro i; simp
  | cons x xs ih =>
    intro i
    cases i with
    | zero => simp
    | succ k => simp only [List.map_cons, List.getD_cons_succ]; exact ih k

theorem take_getD_lt :
    ∀ (row : List ℚ) (n c : Nat), c < n → (row.take n).getD c 0 = row.getD c 0 := by
  intro row
  induction row with
  | nil => intro n c h; simp
  | cons x xs ih =>
    intro n c h
    cases n with
    | zero => omega
    | succ m =>
      cases c with
      | zero => simp
      | succ k => simpa using ih m k (by omega)

theorem map_set' (f : α → β) :
    ∀ (l : List α) (i : Nat) (x : α), (l.map f).set i (f x) = (l.set i x).map f := by
  intro l
  induction l with
  | nil => intro i x; simp
  | cons y ys ih =>
    intro i x
    cases i with
    | zero => simp
    | succ k =>
      simp only [List.map_cons, List.set_cons_succ]
      rw [ih]

theorem map_mapIdx' (g : β → γ) :
    ∀ (l : List α) (F : Nat → α → β),
      (l.mapIdx F).map g = l.mapIdx (fun i a => g (F i a)) := by
  intro l
  induction l with
  | nil => intro F; simp
  | cons x xs ih => intro F; simp [List.mapIdx_cons, ih]

theorem mapIdx_map' (f : α → β) :
    ∀ (l : List α) (G : Nat → β → γ),
      (l.map f).mapIdx G = l.mapIdx (fun i a => G i (f a)) := by
  intro l
  induction l with
  | nil => intro G; simp
  | cons x xs ih => intro G; simp [List.mapIdx_cons, ih]

theorem mapIdx_congr' :
    ∀ (l : List α) (F G : Nat → α → β),
      (∀ i x, F i x = G i x) → l.mapIdx F = l.mapIdx G := by
  intro l
  induction l with
  | nil => intro F G _; simp
  | cons x xs ih =>
    intro F G h
    simp only [List.mapIdx_cons]
    rw [h 0 x]
    congr 1
    exact ih _ _ (fun i y => h (i + 1) y)

theorem take_mapIdx_congr :
    ∀ (row : List ℚ) (n : Nat) (g g' : Nat → ℚ → ℚ),
      (∀ k v, k < n → g k v = g' k v) →
      (row.mapIdx g).take n = (row.take n).mapIdx g' := by
  intro row
  induction row with
  | nil => intro n g g' _; simp
  | cons x xs ih =>
    intro n g g' hg
    cases n with
    | zero => simp
    | succ m =>
      simp only [List.mapIdx_cons, List.take_succ_cons]
      rw [hg 0 x (by omega)]
      congr 1
      exact ih m _ _ (fun k v hk => hg (k + 1) v (by omega))

theorem blkOf_getD (n : Nat) (aug : List (List ℚ)) (r : Nat) :
    (blkOf n aug).getD r [] = (aug.getD r []).take n := by
  unfold blkOf
  calc (aug.map (fun row => row.take n)).getD r []
      = (aug.map (fun row => row.take n)).getD r (([] : List ℚ).take n) := by
        rw [List.take_nil]
    _ = (aug.getD r []).take n := getD_map' _ [] aug r

theorem augRowGet_blk (n : Nat) (aug : List (List ℚ)) (r c : Nat) (h : c < n) :
    augRowGet (blkOf n aug) r c = augRowGet aug r c := by
  unfold augRowGet
  rw [blkOf_getD, take_getD_lt _ _ _ h]

theorem pivotSelect_blk (n : Nat) (aug : List (List ℚ)) (col : Nat) (h : col < n) :
    pivotSelect (blkOf n aug) col n = pivotSelect aug col n := by
  unfold pivotSelect
  rw [augRowGet_blk n aug col col h]
  apply List.foldl_ext
  intro p r _
  dsimp only
  rw [augRowGet_blk n aug r col h]

theorem listSwap_blk (n : Nat) (aug : List (List ℚ)) (i j : Nat) :
    listSwap (blkOf n aug) i j [] = blkOf n (listSwap aug i j []) := by
  unfold listSwap
  rw [blkOf_getD, blkOf_getD]
  show ((blkOf n aug).set i ((aug.getD j []).take n)).set j ((aug.getD i []).take n)
    = blkOf n ((aug.set i (aug.getD j [])).set j (aug.getD i []))
  unfold blkOf
  rw [map_set' (fun row => row.take n) aug i (aug.getD j [])]
  rw [map_set' (fun row => row.take n) (aug.set i (aug.getD j [])) j (aug.getD i [])]

theorem elimStep_blk (n : Nat) (aug : List (List ℚ)) (col : Nat) (h : col < n) :
    elimStep (blkOf n aug) col n
      = match elimStep aug col n with
        | .error e => .error e
        | .ok aug' => .ok (blkOf n aug') := by
  unfold elimStep
  rw [pivotSelect_blk n aug col h]
  by_cases hs : (pivotSelect aug col n).2 < eps12
  · rw [if_pos hs, if_pos hs]
  · rw [if_neg hs, if_neg hs]
    dsimp only
    have hswap : (if (pivotSelect aug col n).1 ≠ col then
          listSwap (blkOf n aug) (pivotSelect aug col n).1 col [] else blkOf n aug)
        = blkOf n (if (pivotSelect aug col n).1 ≠ col then
          listSwap aug (pivotSelect aug col n).1 col [] else aug) := by
      split
      · exact listSwap_blk n aug _ col
      · rfl
    rw [hswap]
    set aug1 := if (pivotSelect aug col n).1 ≠ col then
      listSwap aug (pivotSelect aug col n).1 col [] else aug with haug1
    rw [augRowGet_blk n aug1 col col h]
    set diag := augRowGet aug1 col col with hdiag
    rw [blkOf_getD]
    rw [show ((aug1.getD col []).take n).mapIdx
          (fun k v => if col ≤ k then v / diag else v)
        = (((aug1.getD col []).mapIdx (fun k v => if col ≤ k then v / diag else v)).take n)
      from (take_mapIdx_congr (aug1.getD col []) n _ _ (fun _ _ _ => rfl)).symm]
    rw [show (blkOf n aug1).set col
          (((aug1.getD col []).mapIdx (fun k v => if col ≤ k then v / diag else v)).take n)
        = blkOf n (aug1.set col
          ((aug1.getD col []).mapIdx (fun k v => if col ≤ k then v / diag else v)))
      from map_set' _ aug1 col _]
    set aug2 := aug1.set col
      ((aug1.getD col []).mapIdx (fun k v => if col ≤ k then v / diag else v)) with haug2
    rw [blkOf_getD]
    congr 1
    unfold blkOf
    rw [mapIdx_map' (fun (row : List ℚ) => row.take n) aug2]
    rw [map_mapIdx' (fun (row : List ℚ) => row.take n) aug2]
    apply mapIdx_congr'
    intro r row
    by_cases hr : r = col
    · rw [if_pos hr, if_pos hr]
    · rw [if_neg hr, if_neg hr]
      rw [take_getD_lt row n col h]
      by_cases hf : qabs (row.getD col 0) < eps15
      · rw [if_pos hf, if_pos hf]
      · rw [if_neg hf, if_neg hf]
        exact (take_mapIdx_congr row n _ _ (fun k v hk => by
          rw [take_getD_lt (aug2.getD col []) n k hk])).symm

theorem elimLoop_blk (n : Nat) :
    ∀ (fuel : Nat), fuel ≤ n → ∀ (aug : List (List ℚ)),
      elimLoop n fuel (blkOf n aug)
        = match elimLoop n fuel aug with
          | .error e => .error e
          | .ok aug' => .ok (blkOf n aug') := by
  intro fuel
  induction fuel with
  | zero => intro _ aug; rfl
  | succ f ih =>
    intro hf aug
    have hcol : n - (f + 1) < n := by omega
    simp only [elimLoop]
    rw [elimStep_blk n aug _ hcol]
    cases he : elimStep aug (n - (f + 1)) n with
    | error e => rfl
    | ok aug' =>
      dsimp only
      exact ih (by omega) aug'

theorem elimStep_error (aug : List (List ℚ)) (col n : Nat) (e : String)
    (h : elimStep aug col n = .error e) : e = "singular matrix" := by
  unfold elimStep at h
  by_cases hs : (pivotSelect aug col n).2 < eps12
  · rw [if_pos hs] at h
    injection h with h
    exact h.symm
  · rw [if_neg hs] at h
    exact absurd h (by simp)

theorem elimLoop_error (n : Nat) :
    ∀ (fuel : Nat) (aug : List (List ℚ)) (e : String),
      elimLoop n fuel aug = .error e → e = "singular matrix" := by
  intro fuel
  induction fuel with
  | zero => intro aug e h; exact absurd h (by simp [elimLoop])
  | succ f ih =>
    intro aug e h
    simp only [elimLoop] at h
    cases he : elimStep aug (n - (f + 1)) n with
    | error e' =>
      rw [he] at h
      dsimp only at h
      injection h with h
      exact h ▸ elimStep_error aug _ n e' he
    | ok aug' =>
      rw [he] at h
      dsimp only at h
      exact ih aug' e h

/-- C5: the dense linear solve fails with the dimension-mismatch error
exactly on a right-hand side of the wrong length; with the right length it
fails with the singular-matrix error precisely when eliminating the square
block alone hits a partial pivot below `1e-12` at some column (a property of
the matrix, independent of the right-hand side), and otherwise returns `Ok`
with the computed solution vector. -/
theorem c5_gaussian_elimination_errors (m : DenseMatrix) (rhs : List ℚ)
    (_hsq : m.cols = m.rows) :
    (rhs.length ≠ m.rows → m.gaussianElimination rhs = .error "rhs length mismatch")
    ∧ (rhs.length = m.rows →
        ((m.gaussianElimination rhs = .error "singular matrix") ↔ m.pivotFailure = true)
        ∧ (m.pivotFailure = false → ∃ x, m.gaussianElimination rhs = .ok x)) := by
  constructor
  · intro hne
    unfold DenseMatrix.gaussianElimination
    rw [if_pos hne]
  · intro hlen
    have hblk : blkOf m.rows ((upto m.rows).map
          (fun i => ((upto m.rows).map (fun j => m.get i j)) ++ [rhs.getD i 0]))
        = (upto m.rows).map (fun i => (upto m.rows).map (fun j => m.get i j)) := by
      unfold blkOf
      rw [List.map_map]
      apply List.map_congr_left
      intro i _
      show (((upto m.rows).map (fun j => m.get i j)) ++ [rhs.getD i 0]).take m.rows
        = (upto m.rows).map (fun j => m.get i j)
      have hlr : ((upto m.rows).map (fun j => m.get i j)).length = m.rows := by
        rw [List.length_map, upto_length]
      exact List.take_left' hlr
    have hpf : m.pivotFailure
        = match elimLoop m.rows m.rows ((upto m.rows).map
            (fun i => ((upto m.rows).map (fun j => m.get i j)) ++ [rhs.getD i 0])) with
          | .error _ => true
          | .ok _ => false := by
      unfold DenseMatrix.pivotFailure
      dsimp only
      rw [← hblk, elimLoop_blk m.rows m.rows (le_refl _)]
      cases elimLoop m.rows m.rows ((upto m.rows).map
        (fun i => ((upto m.rows).map (fun j => m.get i j)) ++ [rhs.getD i 0])) <;> rfl
    have hge : m.gaussianElimination rhs
        = match elimLoop m.rows m.rows ((upto m.rows).map
            (fun i => ((upto m.rows).map (fun j => m.get i j)) ++ [rhs.getD i 0])) with
          | .error e => .error e
          | .ok aug' => .ok ((upto m.rows).map (fun i => augRowGet aug' i m.rows)) := by
      unfold DenseMatrix.gaussianElimination
      dsimp only
      rw [if_neg (by simp [hlen])]
    cases hel : elimLoop m.rows m.rows ((upto m.rows).map
        (fun i => ((upto m.rows).map (fun j => m.get i j)) ++ [rhs.getD i 0])) with
    | error e =>
      have he := elimLoop_error m.rows m.rows _ e hel
      subst he
      rw [hel] at hpf hge
      dsimp only at hpf hge
      constructor
      · exact ⟨fun _ => hpf, fun _ => hge⟩
      · intro hf
        rw [hpf] at hf
        exact absurd hf (by simp)
    | ok aug' =>
      rw [hel] at hpf hge
      dsimp only at hpf hge
      constructor
      · constructor
        · intro hc
          rw [hge] at hc
          exact absurd hc (by simp)
        · intro ht
          rw [hpf] at ht
          exact absurd ht (by simp)
      · intro _
        exact ⟨_, hge⟩

/-- C5 witness: a regular 2×2 system solves, and a short right-hand side is
rejected with the dimension-mismatch error. -/
theorem c5_gaussian_elimination_errors_witness :
    (DenseMatrix.mk 2 2 [1, 2, 3, 4]).pivotFailure = false
    ∧ (∃ x, (DenseMatrix.mk 2 2 [1, 2, 3, 4]).gaussianElimination [1, 1] = .ok x)
    ∧ (DenseMatrix.mk 2 2 [1, 2, 3, 4]).gaussianElimination [1]
        = .error "rhs length mismatch" := by
  have hpf : (DenseMatrix.mk 2 2 [1, 2, 3, 4]).pivotFailure = false := by
    norm_num [DenseMatrix.pivotFailure, elimLoop, elimStep, pivotSelect, augRowGet,
      listSwap, qabs, eps12, eps15, upto, DenseMatrix.get, List.mapIdx_cons]
  refine ⟨hpf, ?_, ?_⟩
  · exact ((c5_gaussian_elimination_errors (DenseMatrix.mk 2 2 [1, 2, 3, 4])
      [1, 1] rfl).2 rfl).2 hpf
  · exact (c5_gaussian_elimination_errors (DenseMatrix.mk 2 2 [1, 2, 3, 4])
      [1] rfl).1 (by decide)
